import Mathlib

/-!
Verification of `max_random_baseline.py`: the max-order-statistic engine
over a Poisson binomial distribution.

The underlying Poisson binomial distribution (`PoiBin`) is an external
collaborator: we model it as an abstract pair of functions `cdf`, `pmf`
from integers to rationals.  All code of the engine itself
(`MaxOrderStatisticPoissonBinomial` and the module-level entry points)
is embedded directly, with Python floats modelled as exact rationals
and `np.power(x, t)` for a natural number `t` as `x ^ t`
(both give `x ^ 0 = 1`, including `0 ^ 0 = 1`).
-/

/-- The external Poisson binomial model `PoiBin(ps)`: an abstract handle
exposing a cumulative distribution function and a probability mass
function over the integers. -/
structure PoiBin where
  cdf : ℤ → ℚ
  pmf : ℤ → ℚ

/-- The three accepted shapes of the probability-of-success argument:
a scalar (`float`), an explicit sequence (`list`), or a mapping from
label count to example count (`dict`, modelled as its list of entries). -/
inductive Arg where
  | scalar (p : ℚ)
  | seq (ps : List ℚ)
  | labelCounts (entries : List (ℕ × ℕ))

/-- `MaxOrderStatisticPoissonBinomial._convert_arg_to_ps`: parse the
probabilities of success.  A `float` becomes `[arg] * n`; a `dict`
becomes `num_examples` copies of `1/num_labels` per entry, with the
`assert len(ps) == n` failure (and the `sys.exit()` for unrecognized
shapes, unreachable for the three modelled shapes) modelled as `none`;
a `list` is returned unchanged. -/
def convert_arg_to_ps (n : ℕ) (arg : Arg) : Option (List ℚ) :=
  match arg with
  | .scalar p => some (List.replicate n p)
  | .labelCounts entries =>
      let ps := entries.flatMap (fun e => List.replicate e.2 (1 / (e.1 : ℚ)))
      if ps.length = n then some ps else none
  | .seq ps => some ps

/-- The engine state after `__init__`: the trial count `n` and the
immutable handle `_pb` to the underlying Poisson binomial model. -/
structure MaxOrderStatisticPoissonBinomial where
  n : ℕ
  pb : PoiBin

namespace MaxOrderStatisticPoissonBinomial

/-- `pmf(self, k, t)`: `k = math.floor(k)`, then
`np.power(F_k, t) - np.power(F_k - f_k, t)` with `F_k = self._pb.cdf(k)`
and `f_k = self._pb.pmf(k)`. -/
def pmf (e : MaxOrderStatisticPoissonBinomial) (k : ℚ) (t : ℕ) : ℚ :=
  let k' := ⌊k⌋
  let F_k := e.pb.cdf k'
  let f_k := e.pb.pmf k'
  F_k ^ t - (F_k - f_k) ^ t

/-- `F(self, k, t)`: `k = math.floor(k)`; if `k < 0` return `0`,
else `np.power(self._pb.cdf(k), t)`. -/
def F (e : MaxOrderStatisticPoissonBinomial) (k : ℚ) (t : ℕ) : ℚ :=
  let k' := ⌊k⌋
  if k' < 0 then 0 else e.pb.cdf k' ^ t

/-- `expectation(self, t)`: sum `k * self.pmf(k, t)` for `k` in
`range(self.n + 1)`, then clamp to `[0, n]` via
`max(min(total, self.n), 0.)`. -/
def expectation (e : MaxOrderStatisticPoissonBinomial) (t : ℕ) : ℚ :=
  max (min (∑ k ∈ Finset.range (e.n + 1), (k : ℚ) * e.pmf k t) (e.n : ℚ)) 0

/-- `max_random_baseline(self, t)`: `1/self.n * self.expectation(t)`. -/
def max_random_baseline (e : MaxOrderStatisticPoissonBinomial) (t : ℕ) : ℚ :=
  1 / (e.n : ℚ) * e.expectation t

/-- `p_value(self, acc, t)`: `1 - self.F(self.n * acc - 1, t)`. -/
def p_value (e : MaxOrderStatisticPoissonBinomial) (acc : ℚ) (t : ℕ) : ℚ :=
  1 - e.F ((e.n : ℚ) * acc - 1) t

end MaxOrderStatisticPoissonBinomial

/-- `__init__(self, n, arg)`: build the engine from `(n, arg)` given the
external `PoiBin` constructor; `none` when the builder fails. -/
def mkEngine (PB : List ℚ → PoiBin) (n : ℕ) (arg : Arg) :
    Option MaxOrderStatisticPoissonBinomial :=
  (convert_arg_to_ps n arg).map (fun ps => ⟨n, PB ps⟩)

/-- Module-level `max_random_baseline(n, arg, t)`. -/
def max_random_baseline_toplevel (PB : List ℚ → PoiBin) (n : ℕ) (arg : Arg)
    (t : ℕ) : Option ℚ :=
  (mkEngine PB n arg).map (fun e => e.max_random_baseline t)

/-- A concrete model for witnesses: the Poisson binomial of a single fair
Bernoulli trial (`n = 1`, `ps = [1/2]`). -/
def halfPB : PoiBin where
  cdf k := if k < 0 then 0 else if k = 0 then 1/2 else 1
  pmf k := if k = 0 then 1/2 else if k = 1 then 1/2 else 0

/-- A concrete engine for witnesses: `n = 1` with the fair-coin model. -/
def halfEngine : MaxOrderStatisticPoissonBinomial := ⟨1, halfPB⟩

/-- The fair-coin model is a consistent CDF/pmf pair:
`cdf j - pmf j = cdf (j - 1)` for every integer `j`. -/
theorem halfPB_consistent (j : ℤ) :
    halfPB.cdf j - halfPB.pmf j = halfPB.cdf (j - 1) := by
  simp only [halfPB]
  split_ifs <;> first | omega | norm_num

open MaxOrderStatisticPoissonBinomial in
/-- C1: for every engine state and positive `t`, `expectation t` is the
sum over `k = 0..n` of `k * pmf k t` clamped into `[0, n]`, and
`max_random_baseline t` is `expectation t` divided by `n`. -/
theorem C1_expectation_baseline (e : MaxOrderStatisticPoissonBinomial)
    (t : ℕ) (ht : 0 < t) :
    e.expectation t =
      max (min (∑ k ∈ Finset.range (e.n + 1), (k : ℚ) * e.pmf k t) (e.n : ℚ)) 0
    ∧ e.max_random_baseline t = e.expectation t / (e.n : ℚ) := by
  refine ⟨rfl, ?_⟩
  rw [MaxOrderStatisticPoissonBinomial.max_random_baseline, one_div_mul_eq_div]

/-- Witness for C1 at the fair-coin engine with `t = 1`. -/
theorem C1_witness :
    0 < 1 ∧
    (halfEngine.expectation 1 =
      max (min (∑ k ∈ Finset.range (halfEngine.n + 1),
        (k : ℚ) * halfEngine.pmf k 1) (halfEngine.n : ℚ)) 0
    ∧ halfEngine.max_random_baseline 1 =
        halfEngine.expectation 1 / (halfEngine.n : ℚ)) :=
  ⟨Nat.one_pos, C1_expectation_baseline halfEngine 1 Nat.one_pos⟩

/-- C2: for every engine state, number `k` and positive `t`, `pmf k t`
floors `k` and returns `F_k ^ t - (F_k - f_k) ^ t` where
`F_k = model.cdf ⌊k⌋` and `f_k = model.pmf ⌊k⌋`. -/
theorem C2_pmf_formula (e : MaxOrderStatisticPoissonBinomial)
    (k : ℚ) (t : ℕ) (ht : 0 < t) :
    e.pmf k t = e.pb.cdf ⌊k⌋ ^ t - (e.pb.cdf ⌊k⌋ - e.pb.pmf ⌊k⌋) ^ t := rfl

/-- Witness for C2 at the fair-coin engine with `k = 3/2`, `t = 2`. -/
theorem C2_witness :
    0 < 2 ∧
    halfEngine.pmf (3/2) 2 =
      halfEngine.pb.cdf ⌊(3/2 : ℚ)⌋ ^ 2 -
        (halfEngine.pb.cdf ⌊(3/2 : ℚ)⌋ - halfEngine.pb.pmf ⌊(3/2 : ℚ)⌋) ^ 2 :=
  ⟨Nat.zero_lt_two, C2_pmf_formula halfEngine (3/2) 2 Nat.zero_lt_two⟩

/-- C3: for every engine state, number `k` and positive `t`, `F k t` is `0`
whenever `⌊k⌋ < 0` — for every model, hence without consulting it — and
otherwise is `model.cdf ⌊k⌋ ^ t`. -/
theorem C3_F_cases (e : MaxOrderStatisticPoissonBinomial)
    (k : ℚ) (t : ℕ) (ht : 0 < t) :
    (⌊k⌋ < 0 → e.F k t = 0) ∧ (0 ≤ ⌊k⌋ → e.F k t = e.pb.cdf ⌊k⌋ ^ t) := by
  constructor <;> intro h <;>
    simp [MaxOrderStatisticPoissonBinomial.F, h, not_lt.mpr]

/-- Witness for C3 at the fair-coin engine with `k = -1/2`, `t = 1`. -/
theorem C3_witness :
    0 < 1 ∧
    ((⌊(-1/2 : ℚ)⌋ < 0 → halfEngine.F (-1/2) 1 = 0) ∧
     (0 ≤ ⌊(-1/2 : ℚ)⌋ →
       halfEngine.F (-1/2) 1 = halfEngine.pb.cdf ⌊(-1/2 : ℚ)⌋ ^ 1)) :=
  ⟨Nat.one_pos, C3_F_cases halfEngine (-1/2) 1 Nat.one_pos⟩

/-- C4: for every engine state, accuracy `acc` and positive `t`,
`p_value acc t = 1 - F (n * acc - 1) t`. -/
theorem C4_p_value_formula (e : MaxOrderStatisticPoissonBinomial)
    (acc : ℚ) (t : ℕ) (ht : 0 < t) :
    e.p_value acc t = 1 - e.F ((e.n : ℚ) * acc - 1) t := rfl

/-- Witness for C4 at the fair-coin engine with `acc = 1`, `t = 1`. -/
theorem C4_witness :
    0 < 1 ∧
    halfEngine.p_value 1 1 = 1 - halfEngine.F ((halfEngine.n : ℚ) * 1 - 1) 1 :=
  ⟨Nat.one_pos, C4_p_value_formula halfEngine 1 1 Nat.one_pos⟩

/-- C5 counterexample: at the fair-coin engine (`n = 1`), the accuracy
`acc = 1` satisfies `acc ≤ 1/n`, yet `p_value 1 1 = 1/2 ≠ 1`: at
`acc = 1/n` exactly, `n * acc - 1 = 0`, so `F` consults `cdf 0`. -/
theorem C5_counterexample :
    (1 : ℚ) ≤ 1 / (halfEngine.n : ℚ) ∧ halfEngine.p_value 1 1 ≠ 1 := by
  constructor
  · norm_num [halfEngine]
  · norm_num [MaxOrderStatisticPoissonBinomial.p_value,
      MaxOrderStatisticPoissonBinomial.F, halfEngine, halfPB]

/-- C5 amended: for every engine state with `n > 0`, `p_value acc t = 1`
for every accuracy `acc` with `acc < 1/n` (equivalently `n * acc - 1 < 0`);
in particular this covers `acc = 0`. -/
theorem C5_p_value_one (e : MaxOrderStatisticPoissonBinomial)
    (acc : ℚ) (t : ℕ) (ht : 0 < t) (hn : 0 < e.n)
    (hacc : acc < 1 / (e.n : ℚ)) :
    e.p_value acc t = 1 := by
  have hn' : (0 : ℚ) < (e.n : ℚ) := by exact_mod_cast hn
  have h1 : (e.n : ℚ) * acc - 1 < 0 := by
    have h2 : (e.n : ℚ) * acc < 1 := by
      calc (e.n : ℚ) * acc < (e.n : ℚ) * (1 / (e.n : ℚ)) :=
            mul_lt_mul_of_pos_left hacc hn'
        _ = 1 := by field_simp
    linarith
  have hf : ⌊(e.n : ℚ) * acc - 1⌋ < 0 :=
    Int.floor_lt.mpr (by exact_mod_cast h1)
  simp only [MaxOrderStatisticPoissonBinomial.p_value,
    MaxOrderStatisticPoissonBinomial.F]
  rw [if_pos hf, sub_zero]

/-- Witness for the amended C5 at the fair-coin engine, `acc = 0`, `t = 1`. -/
theorem C5_witness :
    0 < 1 ∧ 0 < halfEngine.n ∧ (0 : ℚ) < 1 / (halfEngine.n : ℚ) ∧
    halfEngine.p_value 0 1 = 1 :=
  ⟨Nat.one_pos, Nat.one_pos, by norm_num [halfEngine],
    C5_p_value_one halfEngine 0 1 Nat.one_pos Nat.one_pos
      (by norm_num [halfEngine])⟩

/-- C6: for every engine state, positive `t` and integer `k` in `[0, n]`,
`F k t` is the cumulative sum of `pmf j t` for `j = 0..k`, assuming the
model is a consistent CDF/pmf pair (`cdf j - pmf j = cdf (j - 1)` and
`cdf (-1) = 0`). -/
theorem C6_F_cumulative_sum (e : MaxOrderStatisticPoissonBinomial)
    (t : ℕ) (ht : 0 < t) (k : ℕ) (hk : k ≤ e.n)
    (hcons : ∀ j : ℤ, e.pb.cdf j - e.pb.pmf j = e.pb.cdf (j - 1))
    (h0 : e.pb.cdf (-1) = 0) :
    e.F (k : ℚ) t = ∑ j ∈ Finset.range (k + 1), e.pmf (j : ℚ) t := by
  induction k with
  | zero =>
      simp only [zero_add, Finset.sum_range_one,
        MaxOrderStatisticPoissonBinomial.F,
        MaxOrderStatisticPoissonBinomial.pmf, Nat.cast_zero, Int.floor_zero]
      rw [hcons 0]
      norm_num [h0, zero_pow ht.ne']
  | succ m ih =>
      rw [Finset.sum_range_succ, ← ih (Nat.le_of_succ_le hk)]
      simp only [MaxOrderStatisticPoissonBinomial.F,
        MaxOrderStatisticPoissonBinomial.pmf, Int.floor_natCast]
      rw [hcons (m + 1 : ℕ)]
      have hm : ((m : ℤ) + 1) - 1 = (m : ℤ) := by ring
      push_cast
      rw [hm]
      have hnn : ¬((m : ℤ) < 0) := not_lt.mpr (Int.natCast_nonneg m)
      have hnn' : ¬((m : ℤ) + 1 < 0) := not_lt.mpr (by positivity)
      rw [if_neg hnn, if_neg hnn']
      ring

/-- Witness for C6 at the fair-coin engine with `t = 1`, `k = 1`. -/
theorem C6_witness :
    0 < 1 ∧ 1 ≤ halfEngine.n ∧
    (∀ j : ℤ, halfEngine.pb.cdf j - halfEngine.pb.pmf j =
      halfEngine.pb.cdf (j - 1)) ∧
    halfEngine.pb.cdf (-1) = 0 ∧
    halfEngine.F ((1 : ℕ) : ℚ) 1 =
      ∑ j ∈ Finset.range (1 + 1), halfEngine.pmf (j : ℚ) 1 :=
  ⟨Nat.one_pos, le_refl 1, fun j => halfPB_consistent j,
    by norm_num [halfEngine, halfPB],
    C6_F_cumulative_sum halfEngine 1 Nat.one_pos 1 (le_refl 1)
      (fun j => halfPB_consistent j) (by norm_num [halfEngine, halfPB])⟩

/-- C7 counterexample: the sequence form is an identity passthrough, so a
list of length 1 with `n = 2` is accepted and the built `ps` has length
`1 ≠ 2`: construction does not enforce `length ps = n` for sequences. -/
theorem C7_counterexample :
    convert_arg_to_ps 2 (Arg.seq [1/2]) = some [1/2] ∧
    ([(1 : ℚ)/2]).length ≠ 2 := by
  exact ⟨rfl, by decide⟩

/-- C7 amended: the scalar and mapping forms always yield `ps` with
`length ps = n` (the mapping form by the construction-time assertion);
the sequence form is returned unchanged, with the caller responsible for
its length. -/
theorem C7_length_invariant (n : ℕ) (arg : Arg) (ps : List ℚ)
    (h : convert_arg_to_ps n arg = some ps) :
    (∀ p, arg = Arg.scalar p → ps.length = n) ∧
    (∀ es, arg = Arg.labelCounts es → ps.length = n) ∧
    (∀ l, arg = Arg.seq l → ps = l) := by
  refine ⟨fun p hp => ?_, fun es hes => ?_, fun l hl => ?_⟩
  · subst hp
    simp only [convert_arg_to_ps, Option.some.injEq] at h
    subst h
    exact List.length_replicate n p
  · subst hes
    simp only [convert_arg_to_ps] at h
    split at h
    · cases h
      assumption
    · cases h
  · subst hl
    simpa [convert_arg_to_ps] using h.symm

/-- Witness for the amended C7 at `n = 2`, scalar argument `1/2`. -/
theorem C7_witness :
    convert_arg_to_ps 2 (Arg.scalar (1/2)) = some [1/2, 1/2] ∧
    ((∀ p, Arg.scalar (1/2 : ℚ) = Arg.scalar p → ([(1:ℚ)/2, 1/2]).length = 2) ∧
     (∀ es, Arg.scalar (1/2 : ℚ) = Arg.labelCounts es →
        ([(1:ℚ)/2, 1/2]).length = 2) ∧
     (∀ l, Arg.scalar (1/2 : ℚ) = Arg.seq l → [(1:ℚ)/2, 1/2] = l)) :=
  ⟨rfl, C7_length_invariant 2 (Arg.scalar (1/2)) [1/2, 1/2] rfl⟩

/-- C8: supplying a scalar probability `p` is equivalent to supplying the
explicit sequence of `n` copies of `p`: the module-level
`max_random_baseline(n, p, t)` agrees with
`max_random_baseline(n, [p]*n, t)` for every model constructor. -/
theorem C8_scalar_sequence_equiv (PB : List ℚ → PoiBin) (n : ℕ) (p : ℚ)
    (t : ℕ) (ht : 0 < t) :
    max_random_baseline_toplevel PB n (Arg.scalar p) t =
      max_random_baseline_toplevel PB n (Arg.seq (List.replicate n p)) t := rfl

/-- Witness for C8 at `n = 1`, `p = 1/2`, `t = 1`, fair-coin constructor. -/
theorem C8_witness :
    0 < 1 ∧
    max_random_baseline_toplevel (fun _ => halfPB) 1 (Arg.scalar (1/2)) 1 =
      max_random_baseline_toplevel (fun _ => halfPB) 1
        (Arg.seq (List.replicate 1 (1/2))) 1 :=
  ⟨Nat.one_pos,
    C8_scalar_sequence_equiv (fun _ => halfPB) 1 (1/2) 1 Nat.one_pos⟩

/-- C9: the mapping builder produces `num_examples` copies of
`1/num_labels` per entry, and fails (never truncating or padding) exactly
when the total length differs from `n`. -/
theorem C9_mapping_builder (n : ℕ) (entries : List (ℕ × ℕ)) :
    ((entries.flatMap (fun e => List.replicate e.2 (1 / (e.1 : ℚ)))).length = n →
      convert_arg_to_ps n (Arg.labelCounts entries) =
        some (entries.flatMap (fun e => List.replicate e.2 (1 / (e.1 : ℚ))))) ∧
    ((entries.flatMap (fun e => List.replicate e.2 (1 / (e.1 : ℚ)))).length ≠ n →
      convert_arg_to_ps n (Arg.labelCounts entries) = none) := by
  refine ⟨fun h => ?_, fun h => ?_⟩
  · simp only [convert_arg_to_ps]
    rw [if_pos h]
  · simp only [convert_arg_to_ps]
    rw [if_neg h]

/-- Witness for C9: one entry of 1 example with 2 labels matches `n = 1`
and yields `[1/2]`; against `n = 2` the same mapping fails. -/
theorem C9_witness :
    (([((2 : ℕ), (1 : ℕ))].flatMap
        (fun e => List.replicate e.2 (1 / (e.1 : ℚ)))).length = 1 ∧
      convert_arg_to_ps 1 (Arg.labelCounts [(2, 1)]) = some [1/2]) ∧
    (([((2 : ℕ), (1 : ℕ))].flatMap
        (fun e => List.replicate e.2 (1 / (e.1 : ℚ)))).length ≠ 2 ∧
      convert_arg_to_ps 2 (Arg.labelCounts [(2, 1)]) = none) :=
  ⟨⟨by decide, by
      have h := (C9_mapping_builder 1 [(2, 1)]).1 (by decide)
      simpa using h⟩,
   ⟨by decide, (C9_mapping_builder 2 [(2, 1)]).2 (by decide)⟩⟩

/-- C10: at `t = 0` (outside the spec's domain, not rejected by the code),
`pmf k 0 = 0` for every `k` with `⌊k⌋ ≥ 0`, `expectation 0 = 0`,
`max_random_baseline 0 = 0`, and `F k 0 = 1` for every such `k`,
since every power used is `x ^ 0 = 1` (including `0 ^ 0 = 1`). -/
theorem C10_t_zero (e : MaxOrderStatisticPoissonBinomial) (k : ℚ)
    (hk : 0 ≤ ⌊k⌋) :
    e.pmf k 0 = 0 ∧ e.expectation 0 = 0 ∧ e.max_random_baseline 0 = 0 ∧
    e.F k 0 = 1 := by
  have hpmf : ∀ q : ℚ, e.pmf q 0 = 0 := fun q => by
    simp [MaxOrderStatisticPoissonBinomial.pmf]
  have hexp : e.expectation 0 = 0 := by
    simp only [MaxOrderStatisticPoissonBinomial.expectation, hpmf,
      mul_zero, Finset.sum_const_zero]
    rw [min_eq_left (by positivity), max_eq_right le_rfl]
  refine ⟨hpmf k, hexp, ?_, ?_⟩
  · simp [MaxOrderStatisticPoissonBinomial.max_random_baseline, hexp]
  · simp [MaxOrderStatisticPoissonBinomial.F, not_lt.mpr hk]

/-- Witness for C10 at the fair-coin engine with `k = 3`. -/
theorem C10_witness :
    0 ≤ ⌊(3 : ℚ)⌋ ∧
    (halfEngine.pmf 3 0 = 0 ∧ halfEngine.expectation 0 = 0 ∧
     halfEngine.max_random_baseline 0 = 0 ∧ halfEngine.F 3 0 = 1) :=
  ⟨by norm_num, C10_t_zero halfEngine 3 (by norm_num)⟩
